import Mathlib

/-!
Shallow embedding of the ScriptGrab whisper engine sidecar: the files
`whisper-engine/protocol.py` and `whisper-engine/engine.py`.

Conventions of the embedding:
* Python floats are modelled as rationals (`ℚ`); Python's `round(x, 3)`
  is modelled as round-half-even of `x * 1000` divided by `1000`.
* Calls into the external whisper/torch libraries are modelled by an
  oracle value of type `CallResult α`: either a normal return, a raised
  `Exception` (carrying `str(e)`), or a raised `KeyboardInterrupt`.
  `sys.exit(n)` raises `SystemExit`, which is caught neither by
  `except Exception` nor by `except KeyboardInterrupt`, so an error
  branch terminates the run directly with its exit code.
* The protocol stream is modelled as the list of emitted `Msg` values in
  emission order; the process exit code is carried alongside.
* `sys.stdout` is modelled as a `StdoutTarget` threaded through the run;
  the manual save/redirect/`finally`-restore blocks of `transcribe_audio`
  are modelled by `suppressedCall`.
-/

/-- Outcome of a call into an external library: a normal return, a raised
`Exception` carrying `str(e)`, or a raised `KeyboardInterrupt`. -/
inductive CallResult (α : Type) where
  | ok (val : α)
  | exn (msg : String)
  | interrupt
  deriving DecidableEq

/-- Floor of a rational, written so that the kernel can evaluate it on
concrete inputs (the `FloorRing` instance of `ℚ` does not reduce). -/
def ratFloor (q : ℚ) : ℤ := q.num / (q.den : ℤ)

/-- Round-half-even of a rational to an integer, modelling the tie
behaviour of Python's builtin `round`. With `n = ⌊q⌋` and
`r = q.num - n * q.den`, the fractional part of `q` is `r / q.den`, so
`q.den < 2 * r` says the fraction exceeds one half and `2 * r < q.den`
says it is below one half; the comparisons are kept in integer form so
that the kernel can evaluate them. -/
def rhe (q : ℚ) : ℤ :=
  if (q.den : ℤ) < 2 * (q.num - ratFloor q * q.den) then ratFloor q + 1
  else if 2 * (q.num - ratFloor q * q.den) < (q.den : ℤ) then ratFloor q
  else if Even (ratFloor q) then ratFloor q else ratFloor q + 1

/-- Python's `round(x, 3)` on the rational model: the half-even rounding
of `q * 1000`, divided by `1000` (written with `Rat.divInt` so that the
kernel can evaluate it). -/
def round3 (q : ℚ) : ℚ := Rat.divInt (rhe (q * 1000)) 1000

/-- Python's `int()` applied to a float: truncation toward zero. -/
def pyInt (q : ℚ) : ℤ := if 0 ≤ q then ratFloor q else -ratFloor (-q)

/-- Python's `str.strip()` with no argument: drop whitespace from both
ends (written on the character list so that the kernel can evaluate it;
`String.trim` itself is defined by well-founded recursion). -/
def pyStrip (s : String) : String :=
  String.mk (((s.data.dropWhile Char.isWhitespace).reverse.dropWhile
    Char.isWhitespace).reverse)

/-- Python's `f"{i:04d}"` for a natural number: the decimal digits,
left-padded with zeros to width 4. -/
def pad4 (i : ℕ) : String :=
  String.mk (List.replicate (4 - (toString i).length) '0') ++ toString i

/-- Raw per-word dict produced by whisper-timestamped: keys `text`,
`start`, `end`, each possibly missing. -/
structure RawWord where
  text : Option String
  start : Option ℚ
  end_ : Option ℚ
  deriving DecidableEq

/-- Raw segment dict produced by whisper-timestamped: keys `start`,
`end`, `text`, `words`, each possibly missing. -/
structure RawSegment where
  start : Option ℚ
  end_ : Option ℚ
  text : Option String
  words : Option (List RawWord)
  deriving DecidableEq

/-- Formatted word as built by `engine.format_segment`. -/
structure FormattedWord where
  word : String
  start : ℚ
  end_ : ℚ
  deriving DecidableEq

/-- Formatted segment as built by `engine.format_segment`. -/
structure FormattedSegment where
  id : String
  start : ℚ
  end_ : ℚ
  text : String
  words : List FormattedWord
  deriving DecidableEq

/-- Embedding of `engine.format_segment` (engine.py lines 67–95):
builds `seg_%04d`, rounds `start`/`end` to 3 decimals with defaults
`0.0`, strips text with default `""`, and maps the optional `words`
list the same way (raw key `text` becomes output key `word`). -/
def format_segment (segment : RawSegment) (segment_index : ℕ) : FormattedSegment :=
  { id := "seg_" ++ pad4 segment_index
    start := round3 (segment.start.getD 0)
    end_ := round3 (segment.end_.getD 0)
    text := pyStrip (segment.text.getD "")
    words :=
      match segment.words with
      | some ws =>
          ws.map fun word_data =>
            { word := pyStrip (word_data.text.getD "")
              start := round3 (word_data.start.getD 0)
              end_ := round3 (word_data.end_.getD 0) }
      | none => [] }

/-- Embedding of `engine.get_audio_duration` (engine.py lines 98–114).
The argument is the oracle outcome of `whisper.load_audio`, with its
payload already reduced to `len(audio) / 16000.0`. A raised `Exception`
is swallowed and yields `0.0`; a `KeyboardInterrupt` is not an
`Exception` in Python and propagates. -/
def get_audio_duration (load_audio : CallResult ℚ) : CallResult ℚ :=
  match load_audio with
  | .ok duration => .ok duration
  | .exn _ => .ok 0
  | .interrupt => .interrupt

/-- Protocol message, one of the four shapes of protocol.py. -/
inductive Msg where
  | progress (percent : ℤ) (status : String)
  | segment (data : FormattedSegment)
  | complete (language : String) (duration : ℚ)
  | error (message : String)
  deriving DecidableEq

/-- Clamp applied by `ProtocolEmitter.progress` (protocol.py line 80):
`max(0, min(100, percent))`. -/
def pyClamp (percent : ℤ) : ℤ := max 0 (min 100 percent)

/-- Embedding of `emit_progress` = `ProtocolEmitter.progress`. -/
def msgProgress (percent : ℤ) (status : String) : Msg :=
  .progress (pyClamp percent) status

/-- Embedding of `emit_error` = `ProtocolEmitter.error`. -/
def msgError (message : String) : Msg := .error message

/-- Embedding of `emit_complete` = `ProtocolEmitter.complete`, which
rounds the duration to 3 decimals (protocol.py line 131). -/
def msgComplete (language : String) (duration : ℚ) : Msg :=
  .complete language (round3 duration)

/-- State of `engine.TranscriptionProgressCallback` (engine.py
lines 117–133): the total duration and the last emitted percent
(initialised to 0 by `__init__`). -/
structure TranscriptionProgressCallback where
  total_duration : ℚ
  last_percent : ℤ
  deriving DecidableEq

/-- Embedding of `TranscriptionProgressCallback.__call__` (engine.py
lines 124–133): returns the updated state and the emitted messages. -/
def TranscriptionProgressCallback.call (self : TranscriptionProgressCallback)
    (current_time : ℚ) : TranscriptionProgressCallback × List Msg :=
  if 0 < self.total_duration then
    let percent := min (pyInt (current_time / self.total_duration * 100)) 99
    if self.last_percent < percent then
      ({ self with last_percent := percent },
        [msgProgress percent ("Transcribing... " ++ toString percent ++ "%")])
    else (self, [])
  else (self, [])

/-- The process's `sys.stdout` target: the real protocol stream, or the
`StderrRedirector` installed around library calls. -/
inductive StdoutTarget where
  | protocol
  | redirector
  deriving DecidableEq

/-- Embedding of the two manual redirect blocks of `transcribe_audio`
(engine.py lines 174–180 and 188–200): save `sys.stdout`, set it to the
redirector, run the call, and in a `finally` clause restore the saved
target. The first component is the call's outcome, passed through
unchanged; the second is `sys.stdout` after the block — because the
restore sits in `finally`, the saved target is reinstated on the normal
exit, the exception exit and the interrupt exit alike. -/
def suppressedCall {α : Type} (saved : StdoutTarget) (call : CallResult α) :
    CallResult α × StdoutTarget :=
  match call with
  | .ok a => (.ok a, saved)
  | .exn e => (.exn e, saved)
  | .interrupt => (.interrupt, saved)

/-- Result dict of `whisper.transcribe`: keys `language` and `segments`,
each possibly missing. -/
structure TranscribeResult where
  language : Option String
  segments : Option (List RawSegment)
  deriving DecidableEq

/-- Oracle for one run of `transcribe_audio`: the CLI arguments and the
outcome of each external call, in program order. `load_audio1` is the
`whisper.load_audio` inside `get_audio_duration` (payload already
`len(audio)/16000.0`); `cuda_check` is the `import torch` /
`torch.cuda.is_available()` probe; `load_audio2` is the second
`whisper.load_audio` at engine.py line 185. -/
structure Env where
  audio_path : String
  model_size : String
  device : Option String
  path_exists : Bool
  load_audio1 : CallResult ℚ
  cuda_check : CallResult Bool
  load_model : CallResult Unit
  load_audio2 : CallResult Unit
  transcribe : CallResult TranscribeResult
  deriving DecidableEq

/-- Device resolution (engine.py lines 169–171): when `--device` was
given the torch probe is skipped; otherwise the probe itself may
raise. -/
def deviceResolved (env : Env) : CallResult Unit :=
  match env.device with
  | some _ => .ok ()
  | none =>
    match env.cuda_check with
    | .ok _ => .ok ()
    | .exn e => .exn e
    | .interrupt => .interrupt

/-- Observable outcome of one run: the protocol messages in emission
order, the process exit code, and the final `sys.stdout` target. -/
structure RunResult where
  msgs : List Msg
  exitCode : ℕ
  stdoutFinal : StdoutTarget
  deriving DecidableEq

/-- The fixed progress message of engine.py line 158. -/
def m5 : Msg := msgProgress 5 "Loading audio file..."

/-- The fixed progress message of engine.py line 166. -/
def m10 (model_size : String) : Msg :=
  msgProgress 10 ("Loading Whisper " ++ model_size ++ " model...")

/-- The fixed progress message of engine.py line 182. -/
def m20 : Msg := msgProgress 20 "Model loaded, starting transcription..."

/-- The fixed progress message of engine.py line 203. -/
def m90 : Msg := msgProgress 90 "Processing segments..."

/-- The fixed progress message of engine.py line 213. -/
def m100 : Msg := msgProgress 100 "Transcription complete"

/-- The error message emitted by the `except KeyboardInterrupt` handler
(engine.py line 217). -/
def cancelMsg : Msg := msgError "Transcription cancelled by user"

/-- Embedding of `engine.transcribe_audio` (engine.py lines 136–221),
driven by the oracle `env`, with `st` the `sys.stdout` target at entry.
Each branch records the messages emitted so far plus the terminal
message, the exit code, and the final `sys.stdout` target. The
`except KeyboardInterrupt` handler yields exit code 130 and the fixed
cancellation message; the `except Exception` handler yields exit code 1
and `str(e)`; `sys.exit(1)` after a validation error is a `SystemExit`,
caught by neither handler. -/
def transcribe_audio (env : Env) (st : StdoutTarget) : RunResult :=
  if env.path_exists then
    match get_audio_duration env.load_audio1 with
    | .interrupt => ⟨[m5, cancelMsg], 130, st⟩
    | .exn e => ⟨[m5, msgError e], 1, st⟩
    | .ok total_duration =>
      if total_duration ≤ 0 then
        ⟨[m5, msgError "Could not determine audio duration"], 1, st⟩
      else
        match deviceResolved env with
        | .interrupt => ⟨[m5, m10 env.model_size, cancelMsg], 130, st⟩
        | .exn e => ⟨[m5, m10 env.model_size, msgError e], 1, st⟩
        | .ok _ =>
          match suppressedCall st env.load_model with
          | (.interrupt, st1) => ⟨[m5, m10 env.model_size, cancelMsg], 130, st1⟩
          | (.exn e, st1) => ⟨[m5, m10 env.model_size, msgError e], 1, st1⟩
          | (.ok _, st1) =>
            match env.load_audio2 with
            | .interrupt => ⟨[m5, m10 env.model_size, m20, cancelMsg], 130, st1⟩
            | .exn e => ⟨[m5, m10 env.model_size, m20, msgError e], 1, st1⟩
            | .ok _ =>
              match suppressedCall st1 env.transcribe with
              | (.interrupt, st2) => ⟨[m5, m10 env.model_size, m20, cancelMsg], 130, st2⟩
              | (.exn e, st2) => ⟨[m5, m10 env.model_size, m20, msgError e], 1, st2⟩
              | (.ok result, st2) =>
                ⟨[m5, m10 env.model_size, m20, m90] ++
                    (result.segments.getD []).enum.map
                      (fun p => Msg.segment (format_segment p.2 p.1)) ++
                    [m100, msgComplete (result.language.getD "unknown") total_duration],
                  0, st2⟩
  else ⟨[msgError ("File not found: " ++ env.audio_path)], 1, st⟩

/-- The run was ended by a `KeyboardInterrupt`: the first anomalous
outcome along the run's program order is an interrupt. Mirrors the
cascade of `transcribe_audio`. -/
def interrupted (env : Env) : Bool :=
  env.path_exists &&
    match get_audio_duration env.load_audio1 with
    | .interrupt => true
    | .exn _ => false
    | .ok d =>
      if d ≤ 0 then false
      else
        match deviceResolved env with
        | .interrupt => true
        | .exn _ => false
        | .ok _ =>
          match env.load_model with
          | .interrupt => true
          | .exn _ => false
          | .ok _ =>
            match env.load_audio2 with
            | .interrupt => true
            | .exn _ => false
            | .ok _ =>
              match env.transcribe with
              | .interrupt => true
              | _ => false

/-- A terminal protocol message: `Complete` or `Error`. -/
def isTerminal : Msg → Bool
  | .complete _ _ => true
  | .error _ => true
  | _ => false

/-- The percent of a `Progress` message, `none` otherwise. -/
def progressPercent? : Msg → Option ℤ
  | .progress p _ => some p
  | _ => none

/-- The percents of the `Progress` messages of a stream, in order. -/
def progressPercents (msgs : List Msg) : List ℤ :=
  msgs.filterMap progressPercent?

/-- The payload of a `Segment` message, `none` otherwise. -/
def segmentData? : Msg → Option FormattedSegment
  | .segment d => some d
  | _ => none

/-- A fully successful run oracle: the file exists, the audio lasts one
second, every external call returns normally, and the model returns a
result dict with neither `language` nor `segments` keys. -/
def env0 : Env :=
  { audio_path := "a.wav", model_size := "base", device := some "cpu"
    path_exists := true, load_audio1 := .ok 1, cuda_check := .ok false
    load_model := .ok (), load_audio2 := .ok (), transcribe := .ok ⟨none, none⟩ }

/-- A raw segment with all keys present. -/
def seg0 : RawSegment :=
  { start := some 0, end_ := some (3 / 2), text := some " hello "
    words := some [{ text := some " hi ", start := some 0, end_ := some 1 }] }

/-- A raw segment with only the `start` and `end` keys. -/
def seg1 : RawSegment :=
  { start := some 2, end_ := some 3, text := none, words := none }

/-- A fully successful run oracle whose model result carries a language
and two chronological segments. -/
def env1 : Env :=
  { env0 with transcribe := .ok ⟨some "en", some [seg0, seg1]⟩ }

/-! Bridge lemmas: the computable arithmetic helpers agree with the
mathematical floor, and half-even rounding is monotone. -/

lemma ratFloor_eq (q : ℚ) : ratFloor q = ⌊q⌋ := Rat.floor_def.symm

lemma fract_eq_div (q : ℚ) :
    q - (⌊q⌋ : ℚ) = ((q.num - ⌊q⌋ * q.den : ℤ) : ℚ) / (q.den : ℚ) := by
  have hd : (0 : ℚ) < (q.den : ℚ) := by exact_mod_cast q.den_pos
  push_cast
  rw [sub_div, Rat.num_div_den, mul_div_cancel_right₀ _ (ne_of_gt hd)]

lemma rhe_cond1 (q : ℚ) :
    ((q.den : ℤ) < 2 * (q.num - ⌊q⌋ * q.den)) ↔ 1 / 2 < q - (⌊q⌋ : ℚ) := by
  have hd : (0 : ℚ) < (q.den : ℚ) := by exact_mod_cast q.den_pos
  rw [fract_eq_div, lt_div_iff₀ hd]
  constructor
  · intro h
    have h' : ((q.den : ℤ) : ℚ) < ((2 * (q.num - ⌊q⌋ * q.den) : ℤ) : ℚ) := by
      exact_mod_cast h
    push_cast at h' ⊢
    linarith
  · intro h
    have h' : ((q.den : ℤ) : ℚ) < ((2 * (q.num - ⌊q⌋ * q.den) : ℤ) : ℚ) := by
      push_cast at h ⊢
      linarith
    exact_mod_cast h'

lemma rhe_cond2 (q : ℚ) :
    (2 * (q.num - ⌊q⌋ * q.den) < (q.den : ℤ)) ↔ q - (⌊q⌋ : ℚ) < 1 / 2 := by
  have hd : (0 : ℚ) < (q.den : ℚ) := by exact_mod_cast q.den_pos
  rw [fract_eq_div, div_lt_iff₀ hd]
  constructor
  · intro h
    have h' : ((2 * (q.num - ⌊q⌋ * q.den) : ℤ) : ℚ) < ((q.den : ℤ) : ℚ) := by
      exact_mod_cast h
    push_cast at h' ⊢
    linarith
  · intro h
    have h' : ((2 * (q.num - ⌊q⌋ * q.den) : ℤ) : ℚ) < ((q.den : ℤ) : ℚ) := by
      push_cast at h ⊢
      linarith
    exact_mod_cast h'

/-- The integer form of `rhe` coincides with half-even rounding phrased
through `Int.floor` and the fractional part. -/
lemma rhe_eq (q : ℚ) :
    rhe q =
      if 1 / 2 < q - (⌊q⌋ : ℚ) then ⌊q⌋ + 1
      else if q - (⌊q⌋ : ℚ) < 1 / 2 then ⌊q⌋
      else if Even ⌊q⌋ then ⌊q⌋ else ⌊q⌋ + 1 := by
  rw [rhe]
  simp only [ratFloor_eq, rhe_cond1, rhe_cond2]

lemma floor_le_rhe (q : ℚ) : ⌊q⌋ ≤ rhe q := by
  rw [rhe_eq]
  split_ifs <;> omega

lemma rhe_le_floor_add_one (q : ℚ) : rhe q ≤ ⌊q⌋ + 1 := by
  rw [rhe_eq]
  split_ifs <;> omega

lemma rhe_mono {x y : ℚ} (h : x ≤ y) : rhe x ≤ rhe y := by
  rcases lt_or_le ⌊x⌋ ⌊y⌋ with hf | hf
  · calc rhe x ≤ ⌊x⌋ + 1 := rhe_le_floor_add_one x
      _ ≤ ⌊y⌋ := by omega
      _ ≤ rhe y := floor_le_rhe y
  · have hfe : ⌊x⌋ = ⌊y⌋ := le_antisymm (Int.floor_le_floor h) hf
    have hfr : x - (⌊x⌋ : ℚ) ≤ y - (⌊y⌋ : ℚ) := by
      rw [hfe]
      linarith
    rw [rhe_eq, rhe_eq, hfe]
    split_ifs <;> first | omega | linarith

lemma round3_eq (q : ℚ) : round3 q = ((rhe (q * 1000) : ℤ) : ℚ) / 1000 := by
  rw [round3, Rat.divInt_eq_div]
  norm_num

lemma round3_mono {x y : ℚ} (h : x ≤ y) : round3 x ≤ round3 y := by
  rw [round3_eq, round3_eq]
  have h1 : rhe (x * 1000) ≤ rhe (y * 1000) := rhe_mono (by linarith)
  have h2 : ((rhe (x * 1000) : ℤ) : ℚ) ≤ ((rhe (y * 1000) : ℤ) : ℚ) := by
    exact_mod_cast h1
  linarith

/-- Every rounded value is an integer number of thousandths. -/
lemma round3_thousandths (q : ℚ) : ∃ n : ℤ, round3 q = (n : ℚ) / 1000 :=
  ⟨rhe (q * 1000), round3_eq q⟩

lemma pyInt_eq_floor {q : ℚ} (h : 0 ≤ q) : pyInt q = ⌊q⌋ := by
  rw [pyInt, if_pos h, ratFloor_eq]

/-! Small evaluation lemmas about the message helpers. -/

lemma pyClamp_eval {p : ℤ} (h0 : 0 ≤ p) (h1 : p ≤ 100) : pyClamp p = p := by
  rw [pyClamp, min_eq_right h1, max_eq_right h0]

@[simp] lemma isTerminal_msgProgress (p : ℤ) (s : String) :
    isTerminal (msgProgress p s) = false := rfl

@[simp] lemma isTerminal_msgError (m : String) : isTerminal (msgError m) = true := rfl

@[simp] lemma isTerminal_msgComplete (l : String) (d : ℚ) :
    isTerminal (msgComplete l d) = true := rfl

@[simp] lemma isTerminal_segment (d : FormattedSegment) :
    isTerminal (Msg.segment d) = false := rfl

@[simp] lemma isTerminal_m5 : isTerminal m5 = false := rfl

@[simp] lemma isTerminal_m10 (s : String) : isTerminal (m10 s) = false := rfl

@[simp] lemma isTerminal_m20 : isTerminal m20 = false := rfl

@[simp] lemma isTerminal_m90 : isTerminal m90 = false := rfl

@[simp] lemma isTerminal_m100 : isTerminal m100 = false := rfl

@[simp] lemma isTerminal_cancelMsg : isTerminal cancelMsg = true := rfl

@[simp] lemma progressPercent?_msgProgress (p : ℤ) (s : String) :
    progressPercent? (msgProgress p s) = some (pyClamp p) := rfl

@[simp] lemma progressPercent?_msgError (m : String) :
    progressPercent? (msgError m) = none := rfl

@[simp] lemma progressPercent?_msgComplete (l : String) (d : ℚ) :
    progressPercent? (msgComplete l d) = none := rfl

@[simp] lemma progressPercent?_segment (d : FormattedSegment) :
    progressPercent? (Msg.segment d) = none := rfl

@[simp] lemma progressPercent?_m5 : progressPercent? m5 = some 5 := by
  rw [m5, progressPercent?_msgProgress, pyClamp_eval] <;> norm_num

@[simp] lemma progressPercent?_m10 (s : String) : progressPercent? (m10 s) = some 10 := by
  rw [m10, progressPercent?_msgProgress, pyClamp_eval] <;> norm_num

@[simp] lemma progressPercent?_m20 : progressPercent? m20 = some 20 := by
  rw [m20, progressPercent?_msgProgress, pyClamp_eval] <;> norm_num

@[simp] lemma progressPercent?_m90 : progressPercent? m90 = some 90 := by
  rw [m90, progressPercent?_msgProgress, pyClamp_eval] <;> norm_num

@[simp] lemma progressPercent?_m100 : progressPercent? m100 = some 100 := by
  rw [m100, progressPercent?_msgProgress, pyClamp_eval] <;> norm_num

@[simp] lemma progressPercent?_cancelMsg : progressPercent? cancelMsg = none := rfl

@[simp] lemma segmentData?_msgProgress (p : ℤ) (s : String) :
    segmentData? (msgProgress p s) = none := rfl

@[simp] lemma segmentData?_msgError (m : String) : segmentData? (msgError m) = none := rfl

@[simp] lemma segmentData?_msgComplete (l : String) (d : ℚ) :
    segmentData? (msgComplete l d) = none := rfl

@[simp] lemma segmentData?_segment (d : FormattedSegment) :
    segmentData? (Msg.segment d) = some d := rfl

@[simp] lemma segmentData?_m5 : segmentData? m5 = none := rfl

@[simp] lemma segmentData?_m10 (s : String) : segmentData? (m10 s) = none := rfl

@[simp] lemma segmentData?_m20 : segmentData? m20 = none := rfl

@[simp] lemma segmentData?_m90 : segmentData? m90 = none := rfl

@[simp] lemma segmentData?_m100 : segmentData? m100 = none := rfl

@[simp] lemma segmentData?_cancelMsg : segmentData? cancelMsg = none := rfl

/-! Case analysis of `transcribe_audio`: every run is the file-not-found
failure, a prefix of progress messages ended by a generic error (exit 1),
a prefix ended by the cancellation error (exit 130), or the full success
trace (exit 0). -/

lemma run_shape (env : Env) (st : StdoutTarget) :
    (transcribe_audio env st = ⟨[msgError ("File not found: " ++ env.audio_path)], 1, st⟩) ∨
    (∃ pre e,
      (pre = [m5] ∨ pre = [m5, m10 env.model_size] ∨ pre = [m5, m10 env.model_size, m20]) ∧
      transcribe_audio env st = ⟨pre ++ [msgError e], 1, st⟩) ∨
    (∃ pre,
      (pre = [m5] ∨ pre = [m5, m10 env.model_size] ∨ pre = [m5, m10 env.model_size, m20]) ∧
      transcribe_audio env st = ⟨pre ++ [cancelMsg], 130, st⟩) ∨
    (∃ (lang : String) (dur : ℚ) (segs : List RawSegment), transcribe_audio env st =
      ⟨[m5, m10 env.model_size, m20, m90] ++
        segs.enum.map (fun p => Msg.segment (format_segment p.2 p.1)) ++
        [m100, Msg.complete lang dur], 0, st⟩) := by
  by_cases hfe : env.path_exists
  case neg =>
    left
    simp [transcribe_audio, hfe]
  case pos =>
    right
    cases hla : get_audio_duration env.load_audio1 with
    | interrupt =>
      right; left
      exact ⟨[m5], Or.inl rfl, by simp [transcribe_audio, hfe, hla]⟩
    | exn e =>
      left
      exact ⟨[m5], e, Or.inl rfl, by simp [transcribe_audio, hfe, hla]⟩
    | ok d =>
      by_cases hd : d ≤ 0
      · left
        exact ⟨[m5], "Could not determine audio duration", Or.inl rfl,
          by simp [transcribe_audio, hfe, hla, hd]⟩
      · cases hdev : deviceResolved env with
        | interrupt =>
          right; left
          exact ⟨[m5, m10 env.model_size], Or.inr (Or.inl rfl),
            by simp [transcribe_audio, hfe, hla, hd, hdev]⟩
        | exn e =>
          left
          exact ⟨[m5, m10 env.model_size], e, Or.inr (Or.inl rfl),
            by simp [transcribe_audio, hfe, hla, hd, hdev]⟩
        | ok u =>
          cases hlm : env.load_model with
          | interrupt =>
            right; left
            exact ⟨[m5, m10 env.model_size], Or.inr (Or.inl rfl),
              by simp [transcribe_audio, suppressedCall, hfe, hla, hd, hdev, hlm]⟩
          | exn e =>
            left
            exact ⟨[m5, m10 env.model_size], e, Or.inr (Or.inl rfl),
              by simp [transcribe_audio, suppressedCall, hfe, hla, hd, hdev, hlm]⟩
          | ok u2 =>
            cases hla2 : env.load_audio2 with
            | interrupt =>
              right; left
              exact ⟨[m5, m10 env.model_size, m20], Or.inr (Or.inr rfl),
                by simp [transcribe_audio, suppressedCall, hfe, hla, hd, hdev, hlm, hla2]⟩
            | exn e =>
              left
              exact ⟨[m5, m10 env.model_size, m20], e, Or.inr (Or.inr rfl),
                by simp [transcribe_audio, suppressedCall, hfe, hla, hd, hdev, hlm, hla2]⟩
            | ok u3 =>
              cases htc : env.transcribe with
              | interrupt =>
                right; left
                exact ⟨[m5, m10 env.model_size, m20], Or.inr (Or.inr rfl),
                  by simp [transcribe_audio, suppressedCall, hfe, hla, hd, hdev, hlm, hla2, htc]⟩
              | exn e =>
                left
                exact ⟨[m5, m10 env.model_size, m20], e, Or.inr (Or.inr rfl),
                  by simp [transcribe_audio, suppressedCall, hfe, hla, hd, hdev, hlm, hla2, htc]⟩
              | ok res =>
                right; right
                exact ⟨res.language.getD "unknown", round3 d, res.segments.getD [],
                  by simp [transcribe_audio, suppressedCall, msgComplete,
                    hfe, hla, hd, hdev, hlm, hla2, htc]⟩

lemma exitCode_eq_130_iff (env : Env) (st : StdoutTarget) :
    ((transcribe_audio env st).exitCode = 130 ↔ interrupted env = true) := by
  by_cases hfe : env.path_exists
  case neg => simp [transcribe_audio, interrupted, hfe]
  case pos =>
    cases hla : get_audio_duration env.load_audio1 with
    | interrupt => simp [transcribe_audio, interrupted, hfe, hla]
    | exn e => simp [transcribe_audio, interrupted, hfe, hla]
    | ok d =>
      by_cases hd : d ≤ 0
      · simp [transcribe_audio, interrupted, hfe, hla, hd]
      · cases hdev : deviceResolved env with
        | interrupt => simp [transcribe_audio, interrupted, hfe, hla, hd, hdev]
        | exn e => simp [transcribe_audio, interrupted, hfe, hla, hd, hdev]
        | ok u =>
          cases hlm : env.load_model with
          | interrupt =>
            simp [transcribe_audio, interrupted, suppressedCall, hfe, hla, hd, hdev, hlm]
          | exn e =>
            simp [transcribe_audio, interrupted, suppressedCall, hfe, hla, hd, hdev, hlm]
          | ok u2 =>
            cases hla2 : env.load_audio2 with
            | interrupt =>
              simp [transcribe_audio, interrupted, suppressedCall, hfe, hla, hd, hdev, hlm, hla2]
            | exn e =>
              simp [transcribe_audio, interrupted, suppressedCall, hfe, hla, hd, hdev, hlm, hla2]
            | ok u3 =>
              cases htc : env.transcribe with
              | interrupt =>
                simp [transcribe_audio, interrupted, suppressedCall,
                  hfe, hla, hd, hdev, hlm, hla2, htc]
              | exn e =>
                simp [transcribe_audio, interrupted, suppressedCall,
                  hfe, hla, hd, hdev, hlm, hla2, htc]
              | ok res =>
                simp [transcribe_audio, interrupted, suppressedCall,
                  hfe, hla, hd, hdev, hlm, hla2, htc]

/-! List helpers about the block of `Segment` messages. -/

lemma segMsgs_countP_isTerminal (l : List (ℕ × RawSegment)) :
    (l.map (fun p => Msg.segment (format_segment p.2 p.1))).countP isTerminal = 0 := by
  rw [List.countP_eq_zero]
  intro m hm
  rcases List.mem_map.mp hm with ⟨p, _, rfl⟩
  simp

lemma segMsgs_filterMap_progress (l : List (ℕ × RawSegment)) :
    (l.map (fun p => Msg.segment (format_segment p.2 p.1))).filterMap progressPercent? = [] := by
  simp [List.filterMap_map, Function.comp_def]

lemma segMsgs_filterMap_segmentData (l : List (ℕ × RawSegment)) :
    (l.map (fun p => Msg.segment (format_segment p.2 p.1))).filterMap segmentData? =
      l.map (fun p => format_segment p.2 p.1) := by
  induction l with
  | nil => rfl
  | cons h t ih => simp [List.filterMap_cons, ih]

lemma last?_snoc {α : Type} (l : List α) (a : α) : (l ++ [a]).getLast? = some a := by
  simp [List.getLast?_concat]

lemma segMsgs_filterMap_progress_comp (l : List (ℕ × RawSegment)) :
    l.filterMap (progressPercent? ∘ fun p => Msg.segment (format_segment p.2 p.1)) = [] := by
  rw [← List.filterMap_map]
  exact segMsgs_filterMap_progress l

lemma segMsgs_filterMap_segmentData_comp (l : List (ℕ × RawSegment)) :
    l.filterMap (segmentData? ∘ fun p => Msg.segment (format_segment p.2 p.1)) =
      l.map (fun p => format_segment p.2 p.1) := by
  rw [← List.filterMap_map]
  exact segMsgs_filterMap_segmentData l

/-! Evaluated forms of the fixed progress messages, and extractor lemmas
for the raw `Msg.complete` constructor appearing in `run_shape`. -/

@[simp] lemma m5_eval : m5 = Msg.progress 5 "Loading audio file..." := by
  rw [m5, msgProgress, pyClamp_eval] <;> norm_num

@[simp] lemma m10_eval (s : String) :
    m10 s = Msg.progress 10 ("Loading Whisper " ++ s ++ " model...") := by
  rw [m10, msgProgress, pyClamp_eval] <;> norm_num

@[simp] lemma m20_eval : m20 = Msg.progress 20 "Model loaded, starting transcription..." := by
  rw [m20, msgProgress, pyClamp_eval] <;> norm_num

@[simp] lemma m90_eval : m90 = Msg.progress 90 "Processing segments..." := by
  rw [m90, msgProgress, pyClamp_eval] <;> norm_num

@[simp] lemma m100_eval : m100 = Msg.progress 100 "Transcription complete" := by
  rw [m100, msgProgress, pyClamp_eval] <;> norm_num

@[simp] lemma cancelMsg_eval : cancelMsg = Msg.error "Transcription cancelled by user" := rfl

@[simp] lemma isTerminal_complete (l : String) (d : ℚ) :
    isTerminal (Msg.complete l d) = true := rfl

@[simp] lemma isTerminal_error (m : String) : isTerminal (Msg.error m) = true := rfl

@[simp] lemma isTerminal_progress (p : ℤ) (s : String) :
    isTerminal (Msg.progress p s) = false := rfl

@[simp] lemma progressPercent?_complete (l : String) (d : ℚ) :
    progressPercent? (Msg.complete l d) = none := rfl

@[simp] lemma progressPercent?_error (m : String) :
    progressPercent? (Msg.error m) = none := rfl

@[simp] lemma progressPercent?_progress (p : ℤ) (s : String) :
    progressPercent? (Msg.progress p s) = some p := rfl

@[simp] lemma segmentData?_complete (l : String) (d : ℚ) :
    segmentData? (Msg.complete l d) = none := rfl

@[simp] lemma segmentData?_error (m : String) : segmentData? (Msg.error m) = none := rfl

@[simp] lemma segmentData?_progress (p : ℤ) (s : String) :
    segmentData? (Msg.progress p s) = none := rfl

lemma getLast?_append_pair {α : Type} (l1 l2 : List α) (a b : α) :
    (l1 ++ l2 ++ [a, b]).getLast? = some b := by
  have h : l1 ++ l2 ++ [a, b] = (l1 ++ (l2 ++ [a])) ++ [b] := by simp
  rw [h, last?_snoc]

/-- C9: `transcribe_audio` restores the original stdout target on every
exit path, including when a wrapped call raises. -/
theorem stdout_restored_on_all_paths (env : Env) (st : StdoutTarget) :
    (transcribe_audio env st).stdoutFinal = st := by
  rcases run_shape env st with h | ⟨pre, e, hp, h⟩ | ⟨pre, hp, h⟩ | ⟨lang, dur, segs, h⟩ <;>
    rw [h]

/-- C2: every run emits exactly one terminal (`Complete` or `Error`)
message, and it is the last message on the stream. -/
theorem terminal_message_unique_and_last (env : Env) (st : StdoutTarget) :
    ((transcribe_audio env st).msgs.countP isTerminal = 1) ∧
    ∃ m, (transcribe_audio env st).msgs.getLast? = some m ∧ isTerminal m = true := by
  rcases run_shape env st with h | ⟨pre, e, hp, h⟩ | ⟨pre, hp, h⟩ | ⟨lang, dur, segs, h⟩ <;>
    rw [h]
  · exact ⟨by simp [List.countP_cons, msgError], msgError _, rfl, rfl⟩
  · rcases hp with rfl | rfl | rfl <;>
      exact ⟨by simp [List.countP_append, List.countP_cons], msgError e, last?_snoc _ _, rfl⟩
  · rcases hp with rfl | rfl | rfl <;>
      exact ⟨by simp [List.countP_append, List.countP_cons], cancelMsg, last?_snoc _ _, rfl⟩
  · refine ⟨?_, Msg.complete lang dur, getLast?_append_pair _ _ _ _, rfl⟩
    simp [List.countP_append, List.countP_cons, segMsgs_countP_isTerminal]

/-- C4: when the input path does not exist the run emits exactly the one
`Error` message `File not found: <path>` and exits with code 1. -/
theorem missing_file_single_error_and_exit1 (env : Env) (st : StdoutTarget)
    (h : env.path_exists = false) :
    (transcribe_audio env st).msgs = [Msg.error ("File not found: " ++ env.audio_path)] ∧
    (transcribe_audio env st).exitCode = 1 := by
  constructor <;> simp [transcribe_audio, msgError, h]

/-- Oracle for the missing-file scenario of the spec. -/
def envMissing : Env := { env0 with audio_path := "./nope.wav", path_exists := false }

theorem missing_file_single_error_and_exit1_witness :
    (transcribe_audio envMissing StdoutTarget.protocol).msgs =
      [Msg.error "File not found: ./nope.wav"] ∧
    (transcribe_audio envMissing StdoutTarget.protocol).exitCode = 1 := by
  have h := missing_file_single_error_and_exit1 envMissing StdoutTarget.protocol rfl
  refine ⟨?_, h.2⟩
  rw [h.1]
  with_unfolding_all decide

/-- C8: `get_audio_duration` maps a raised `Exception` to duration `0.0`,
and any run on an existing file whose computed duration is `≤ 0` emits
the `Could not determine audio duration` error and exits with code 1. -/
theorem duration_nonpositive_fails :
    (∀ m, get_audio_duration (CallResult.exn m) = CallResult.ok 0) ∧
    ∀ (env : Env) (st : StdoutTarget) (d : ℚ),
      env.path_exists = true → get_audio_duration env.load_audio1 = CallResult.ok d →
      d ≤ 0 →
      (transcribe_audio env st).msgs =
        [m5, Msg.error "Could not determine audio duration"] ∧
      (transcribe_audio env st).exitCode = 1 := by
  refine ⟨fun m => rfl, ?_⟩
  intro env st d hfe hla hd
  constructor <;> simp [transcribe_audio, msgError, hfe, hla, hd]

/-- Oracle for a run whose audio-loading call raises. -/
def envBadAudio : Env := { env0 with load_audio1 := .exn "boom" }

theorem duration_nonpositive_fails_witness :
    (transcribe_audio envBadAudio StdoutTarget.protocol).msgs =
      [m5, Msg.error "Could not determine audio duration"] ∧
    (transcribe_audio envBadAudio StdoutTarget.protocol).exitCode = 1 :=
  duration_nonpositive_fails.2 envBadAudio StdoutTarget.protocol 0 rfl rfl le_rfl

/-- C3: the exit code is 0 exactly when the run ends with a `Complete`
message; it is 130 exactly when the run was ended by a
`KeyboardInterrupt`, in which case the last message is the distinct
cancellation `Error`; and no exit code other than 0, 1, 130 occurs. -/
theorem exit_code_contract (env : Env) (st : StdoutTarget) :
    ((∃ l dur, (transcribe_audio env st).msgs.getLast? = some (Msg.complete l dur)) ↔
      (transcribe_audio env st).exitCode = 0) ∧
    ((transcribe_audio env st).exitCode = 130 ↔ interrupted env = true) ∧
    ((transcribe_audio env st).exitCode = 130 →
      (transcribe_audio env st).msgs.getLast? =
        some (Msg.error "Transcription cancelled by user")) ∧
    ((transcribe_audio env st).exitCode = 0 ∨ (transcribe_audio env st).exitCode = 1 ∨
      (transcribe_audio env st).exitCode = 130) := by
  refine ⟨?_, exitCode_eq_130_iff env st, ?_, ?_⟩
  · rcases run_shape env st with h | ⟨pre, e, hp, h⟩ | ⟨pre, hp, h⟩ | ⟨lang, dur, segs, h⟩ <;>
      rw [h]
    · simp [msgError]
    · simp [last?_snoc, msgError]
    · simp [last?_snoc, cancelMsg, msgError]
    · simp only [getLast?_append_pair]
      exact iff_of_true ⟨lang, dur, rfl⟩ trivial
  · rcases run_shape env st with h | ⟨pre, e, hp, h⟩ | ⟨pre, hp, h⟩ | ⟨lang, dur, segs, h⟩ <;>
      rw [h]
    · intro hx
      simp at hx
    · intro hx
      simp at hx
    · intro _
      simp [last?_snoc]
    · intro hx
      simp at hx
  · rcases run_shape env st with h | ⟨pre, e, hp, h⟩ | ⟨pre, hp, h⟩ | ⟨lang, dur, segs, h⟩ <;>
      rw [h] <;> simp

theorem exit_code_contract_witness :
    (transcribe_audio env0 StdoutTarget.protocol).exitCode = 0 :=
  (exit_code_contract env0 StdoutTarget.protocol).1.mp
    ⟨"unknown", 1, by with_unfolding_all decide⟩

/-- C5: `format_segment` builds the id `seg_` + zero-padded 4-digit
index, rounds `start`/`end` and each word's `start`/`end` to 3 decimal
places (every rounded value is an integer number of thousandths),
defaults missing numeric fields to `0.0` and missing text fields to the
empty string, and strips the text and word strings. -/
theorem format_segment_spec (segment : RawSegment) (segment_index : ℕ) :
    (format_segment segment segment_index).id = "seg_" ++ pad4 segment_index ∧
    (format_segment segment segment_index).start = round3 (segment.start.getD 0) ∧
    (format_segment segment segment_index).end_ = round3 (segment.end_.getD 0) ∧
    (format_segment segment segment_index).text = pyStrip (segment.text.getD "") ∧
    (format_segment segment segment_index).words =
      (segment.words.getD []).map (fun word_data =>
        { word := pyStrip (word_data.text.getD "")
          start := round3 (word_data.start.getD 0)
          end_ := round3 (word_data.end_.getD 0) }) ∧
    (∃ n : ℤ, (format_segment segment segment_index).start = (n : ℚ) / 1000) ∧
    (∃ n : ℤ, (format_segment segment segment_index).end_ = (n : ℚ) / 1000) ∧
    ∀ w ∈ (format_segment segment segment_index).words,
      (∃ n : ℤ, w.start = (n : ℚ) / 1000) ∧ (∃ n : ℤ, w.end_ = (n : ℚ) / 1000) := by
  refine ⟨rfl, rfl, rfl, rfl, ?_, round3_thousandths _, round3_thousandths _, ?_⟩
  · cases hw : segment.words <;> simp [format_segment, hw]
  · intro w hw
    rw [format_segment] at hw
    cases hws : segment.words with
    | none =>
      rw [hws] at hw
      simp at hw
    | some ws =>
      rw [hws] at hw
      simp only [List.mem_map] at hw
      rcases hw with ⟨wd, _, rfl⟩
      exact ⟨round3_thousandths _, round3_thousandths _⟩

theorem format_segment_spec_witness :
    (∃ n : ℤ, (FormattedWord.mk "hi" 0 1).start = (n : ℚ) / 1000) ∧
    (∃ n : ℤ, (FormattedWord.mk "hi" 0 1).end_ = (n : ℚ) / 1000) :=
  (format_segment_spec seg0 0).2.2.2.2.2.2.2 (FormattedWord.mk "hi" 0 1)
    (by with_unfolding_all decide)

/-- C6: given positive total duration and a nonnegative position, the
progress callback computes `percent = floor(current/total * 100)`
clamped to `[0, 99]`, emits a single `Progress` message exactly when
that percent strictly exceeds the stored last percent (updating it), and
emits nothing otherwise. -/
theorem progress_callback_contract (total : ℚ) (last : ℤ) (current : ℚ)
    (ht : 0 < total) (hc : 0 ≤ current) :
    min (pyInt (current / total * 100)) 99 =
      max 0 (min ⌊current / total * 100⌋ 99) ∧
    (last < min (pyInt (current / total * 100)) 99 →
      TranscriptionProgressCallback.call ⟨total, last⟩ current =
        (⟨total, min (pyInt (current / total * 100)) 99⟩,
          [Msg.progress (min (pyInt (current / total * 100)) 99)
            ("Transcribing... " ++ toString (min (pyInt (current / total * 100)) 99) ++
              "%")])) ∧
    (min (pyInt (current / total * 100)) 99 ≤ last →
      TranscriptionProgressCallback.call ⟨total, last⟩ current = (⟨total, last⟩, [])) := by
  have hq : (0 : ℚ) ≤ current / total * 100 := by positivity
  have hfl : pyInt (current / total * 100) = ⌊current / total * 100⌋ := pyInt_eq_floor hq
  have hmin0 : 0 ≤ min (pyInt (current / total * 100)) 99 := by
    rw [hfl]
    exact le_min (Int.floor_nonneg.mpr hq) (by norm_num)
  refine ⟨?_, ?_, ?_⟩
  · rw [hfl, max_eq_right]
    rw [← hfl]
    exact hmin0
  · intro hlt
    rw [TranscriptionProgressCallback.call]
    simp only [if_pos ht, if_pos hlt]
    rw [msgProgress, pyClamp_eval hmin0 (le_trans (min_le_right _ _) (by norm_num))]
  · intro hle
    rw [TranscriptionProgressCallback.call]
    simp only [if_pos ht, if_neg (not_lt.mpr hle)]

theorem progress_callback_contract_witness :
    TranscriptionProgressCallback.call ⟨10, 0⟩ 5 =
      (⟨10, 50⟩, [Msg.progress 50 "Transcribing... 50%"]) := by
  have h := (progress_callback_contract 10 0 5 (by norm_num) (by norm_num)).2.1
    (by with_unfolding_all decide)
  rw [h]
  with_unfolding_all decide

/-- C1 (counterexample): in the successful run `env0` the code emits an
explicit `Progress` message with percent 100 strictly before the
terminal `Complete` message, so the claim that `Progress.percent` stays
within `[0, 99]` until the terminal message — with only the `Complete`
message representing 100% — fails on the code. -/
theorem progress_100_before_terminal :
    Msg.progress 100 "Transcription complete" ∈
      (transcribe_audio env0 StdoutTarget.protocol).msgs.dropLast ∧
    (transcribe_audio env0 StdoutTarget.protocol).msgs.getLast? =
      some (Msg.complete "unknown" 1) := by
  constructor <;> with_unfolding_all decide

/-- C1 (amended): within a run the `Progress` percents form a
non-decreasing sequence bounded in `[0, 100]`, and a percent of 100
occurs only as the final `Progress(100, "Transcription complete")`
message immediately preceding the terminal `Complete` message. -/
theorem progress_monotone_bounded_amended (env : Env) (st : StdoutTarget) :
    List.Chain' (· ≤ ·) (progressPercents (transcribe_audio env st).msgs) ∧
    (∀ p ∈ progressPercents (transcribe_audio env st).msgs, 0 ≤ p ∧ p ≤ 100) ∧
    ((100 : ℤ) ∈ progressPercents (transcribe_audio env st).msgs →
      ∃ (pre : List Msg) (lang : String) (dur : ℚ),
        (transcribe_audio env st).msgs =
          pre ++ [Msg.progress 100 "Transcription complete", Msg.complete lang dur] ∧
        ∀ p ∈ progressPercents pre, p ≤ 99) := by
  rcases run_shape env st with h | ⟨pre, e, hp, h⟩ | ⟨pre, hp, h⟩ | ⟨lang, dur, segs, h⟩ <;>
    rw [h]
  · simp [progressPercents, msgError]
  · rcases hp with rfl | rfl | rfl <;>
      refine ⟨?_, ?_, ?_⟩ <;> simp [progressPercents, msgError]
  · rcases hp with rfl | rfl | rfl <;>
      refine ⟨?_, ?_, ?_⟩ <;> simp [progressPercents]
  · refine ⟨?_, ?_, ?_⟩
    · simp [progressPercents, List.filterMap_append, segMsgs_filterMap_progress_comp]
    · simp [progressPercents, List.filterMap_append, segMsgs_filterMap_progress_comp]
      try norm_num
    · intro _
      refine ⟨[m5, m10 env.model_size, m20, m90] ++
        segs.enum.map (fun p => Msg.segment (format_segment p.2 p.1)), lang, dur, ?_, ?_⟩
      · simp [List.append_assoc]
      · simp [progressPercents, List.filterMap_append, segMsgs_filterMap_progress_comp]

theorem progress_monotone_bounded_amended_witness :
    ∃ (pre : List Msg) (lang : String) (dur : ℚ),
      (transcribe_audio env0 StdoutTarget.protocol).msgs =
        pre ++ [Msg.progress 100 "Transcription complete", Msg.complete lang dur] ∧
      ∀ p ∈ progressPercents pre, p ≤ 99 :=
  (progress_monotone_bounded_amended env0 StdoutTarget.protocol).2.2
    (by with_unfolding_all decide)

/-- C7: on a successful run, exactly one `Segment` message is emitted
per result segment, strictly in the model's order with sequential
zero-padded ids; and when the raw segments' starts are chronological
(non-decreasing), the emitted `start` values are non-decreasing too. -/
theorem segments_in_model_order (env : Env) (st : StdoutTarget) (d : ℚ)
    (res : TranscribeResult)
    (hfe : env.path_exists = true)
    (hla : get_audio_duration env.load_audio1 = CallResult.ok d)
    (hd : ¬d ≤ 0)
    (hdev : deviceResolved env = CallResult.ok ())
    (hlm : env.load_model = CallResult.ok ())
    (hla2 : env.load_audio2 = CallResult.ok ())
    (htc : env.transcribe = CallResult.ok res) :
    ((transcribe_audio env st).msgs.filterMap segmentData? =
      (res.segments.getD []).enum.map (fun p => format_segment p.2 p.1)) ∧
    (((transcribe_audio env st).msgs.filterMap segmentData?).map (fun fs => fs.id) =
      (List.range (res.segments.getD []).length).map (fun i => "seg_" ++ pad4 i)) ∧
    (List.Chain' (· ≤ ·) ((res.segments.getD []).map (fun sg => sg.start.getD 0)) →
      List.Chain' (· ≤ ·)
        (((transcribe_audio env st).msgs.filterMap segmentData?).map (fun fs => fs.start))) := by
  have hmsgs : (transcribe_audio env st).msgs =
      [m5, m10 env.model_size, m20, m90] ++
        (res.segments.getD []).enum.map (fun p => Msg.segment (format_segment p.2 p.1)) ++
        [m100, msgComplete (res.language.getD "unknown") d] := by
    simp [transcribe_audio, suppressedCall, hfe, hla, hd, hdev, hlm, hla2, htc]
  have hfm : (transcribe_audio env st).msgs.filterMap segmentData? =
      (res.segments.getD []).enum.map (fun p => format_segment p.2 p.1) := by
    rw [hmsgs]
    simp [List.filterMap_append, segMsgs_filterMap_segmentData_comp]
  refine ⟨hfm, ?_, ?_⟩
  · rw [hfm, List.map_map]
    rw [show ((fun fs => fs.id) ∘ fun p => format_segment p.2 p.1) =
      ((fun i => "seg_" ++ pad4 i) ∘ Prod.fst) from rfl]
    rw [← List.map_map, List.enum_map_fst]
  · intro hch
    rw [hfm, List.map_map]
    rw [show ((fun fs => fs.start) ∘ fun p => format_segment p.2 p.1) =
      ((fun sg => round3 (sg.start.getD 0)) ∘ Prod.snd) from rfl]
    rw [← List.map_map, List.enum_map_snd]
    rw [List.chain'_map] at hch ⊢
    exact hch.imp fun a b hab => round3_mono hab

theorem segments_in_model_order_witness :
    List.Chain' (· ≤ ·)
      (((transcribe_audio env1 StdoutTarget.protocol).msgs.filterMap segmentData?).map
        (fun fs => fs.start)) := by
  have h := segments_in_model_order env1 StdoutTarget.protocol 1
    ⟨some "en", some [seg0, seg1]⟩ rfl rfl (by norm_num) rfl rfl rfl rfl
  refine h.2.2 ?_
  simp [seg0, seg1]

/-- C10: the `Progress(90)` message is only ever emitted immediately
after the `Progress(20)` message, with nothing in between: the
transcription call is made without the progress callback, so no protocol
message at all is emitted between model-load completion and segment
processing. -/
theorem no_messages_between_p20_and_p90 (env : Env) (st : StdoutTarget)
    (h : m90 ∈ (transcribe_audio env st).msgs) :
    ∃ tail : List Msg,
      (transcribe_audio env st).msgs = [m5, m10 env.model_size, m20, m90] ++ tail := by
  rcases run_shape env st with hr | ⟨pre, e, hp, hr⟩ | ⟨pre, hp, hr⟩ | ⟨lang, dur, segs, hr⟩ <;>
    rw [hr] at h ⊢
  · simp [msgError] at h
  · rcases hp with rfl | rfl | rfl <;> simp [msgError] at h
  · rcases hp with rfl | rfl | rfl <;> simp at h
  · exact ⟨segs.enum.map (fun p => Msg.segment (format_segment p.2 p.1)) ++
      [m100, Msg.complete lang dur], by simp [List.append_assoc]⟩

theorem no_messages_between_p20_and_p90_witness :
    ∃ tail : List Msg,
      (transcribe_audio env1 StdoutTarget.protocol).msgs =
        [m5, m10 env1.model_size, m20, m90] ++ tail :=
  no_messages_between_p20_and_p90 env1 StdoutTarget.protocol
    (by with_unfolding_all decide)
